import Mathlib

/-!
Verification of the FinBot retrieval-augmented generation pipeline.

This file gives a shallow embedding, in Lean 4, of the core components of the
FinBot repository: the word-window text chunker (`src/utils/chunking.py` and
`src/Chunking/document_parser.py`), the context assembler and RAG orchestrator
(`src/rag_pipeline.py`), the multi-strategy content extraction agent
(`src/agents/content_extractor.py`), and the bulk-write path of the Qdrant
vector-store clients (`src/vectordb/qdrant_client.py` and
`src/vectorstore/qdrant_client.py`).  Python strings are modelled as lists of
characters, Python exceptions as the `Except` monad, and the three external
capabilities (embedding model, vector index, generative LLM) as function-valued
parameters that may either return a value or raise.
-/

/-- Python strings are modelled as lists of characters (code points);
`len`, slicing and concatenation become `List.length`, `take`/`drop` and `++`. -/
abbrev PyStr := List Char

/-- Worker for `splitWords`, carrying the current (reversed) partial word.
Mirrors Python `str.split()` with no arguments: runs of whitespace separate
words, leading and trailing whitespace is ignored, no empty words are
produced. -/
def splitWordsAux : List Char → List Char → List PyStr
  | [], acc => if acc.isEmpty then [] else [acc.reverse]
  | c :: rest, acc =>
    if c.isWhitespace then
      if acc.isEmpty then splitWordsAux rest []
      else acc.reverse :: splitWordsAux rest []
    else splitWordsAux rest (c :: acc)

/-- Python `text.split()` (no separator argument), as used by both chunkers. -/
def splitWords (s : PyStr) : List PyStr := splitWordsAux s []

/-- Python `' '.join(words)`, as used to build a chunk's text. -/
def joinSpace : List PyStr → PyStr
  | [] => []
  | [w] => w
  | w :: ws => w ++ ' ' :: joinSpace ws

/-- Ceiling division `(stop + step - 1) / step`: the number of indices produced
by Python `range(0, stop, step)` for a positive `step`. -/
def numIdx (stop step : Nat) : Nat := (stop + step - 1) / step

/-- Python `range(0, stop, step)` for a non-negative `stop` and an arbitrary
(integer) `step`, with Python's semantics: a zero step raises `ValueError`
(`range() arg 3 must not be zero`); a negative step with a non-negative stop
yields no indices; a positive step yields `0, step, 2*step, ...` below
`stop`. -/
def pyRange0 (stop : Nat) (step : Int) : Except PyStr (List Nat) :=
  if step = 0 then .error "range() arg 3 must not be zero".data
  else if step < 0 then .ok []
  else .ok ((List.range (numIdx stop step.toNat)).map (fun k => k * step.toNat))

/-- One chunk dictionary produced by `TextChunker.chunk_text`
(src/utils/chunking.py).  The `chunk_size` field carries `len(chunk_words)`,
the size of this particular chunk. -/
structure Chunk where
  text : PyStr
  chunk_id : Nat
  start_word : Nat
  end_word : Nat
  chunk_size : Nat
  overlap_size : Nat
deriving DecidableEq

/-- The chunk built by one iteration of the loop of `TextChunker.chunk_text`
at word index `i`, when `len(chunks)` is `cid`: `chunk_words = words[i:i+cs]`,
`end_word = min(i + cs, len(words))`, `overlap_size = overlap if i > 0 else 0`.
The optional page tracking (`pages_content`) is `None` at every call site the
claims cover, so `page_mapping` is empty and no page field is produced. -/
def mkChunk (words : List PyStr) (cs ov i cid : Nat) : Chunk :=
  { text := joinSpace ((words.drop i).take cs)
    chunk_id := cid
    start_word := i
    end_word := min (i + cs) words.length
    chunk_size := ((words.drop i).take cs).length
    overlap_size := if 0 < i then ov else 0 }

/-- The chunk-accumulating loop of `TextChunker.chunk_text`: each appended
chunk's `chunk_id` is the number of chunks already accumulated. -/
def chunkLoop (words : List PyStr) (cs ov : Nat) : List Nat → Nat → List Chunk
  | [], _ => []
  | i :: rest, cid => mkChunk words cs ov i cid :: chunkLoop words cs ov rest (cid + 1)

/-- `TextChunker.chunk_text(text, chunk_size, overlap)` from
src/utils/chunking.py (with `pages_content=None`): empty text returns `[]`;
otherwise the text is split into words and a window of `chunk_size` words
slides by `chunk_size - overlap` words per step, via
`range(0, len(words), chunk_size - overlap)`. -/
def chunkText (text : PyStr) (cs ov : Nat) : Except PyStr (List Chunk) :=
  if text.isEmpty then .ok []
  else
    let words := splitWords text
    match pyRange0 words.length ((cs : Int) - (ov : Int)) with
    | .error e => .error e
    | .ok idxs => .ok (chunkLoop words cs ov idxs 0)

/-- One chunk dictionary produced by `DocumentParser.chunk_text`
(src/Chunking/document_parser.py): same loop as `TextChunker.chunk_text` but
the dictionary carries only `text`, `chunk_id`, `start_word`, `end_word`. -/
structure DPChunk where
  text : PyStr
  chunk_id : Nat
  start_word : Nat
  end_word : Nat
deriving DecidableEq

/-- Projection from a `TextChunker` chunk to the fields kept by
`DocumentParser.chunk_text`. -/
def chunkToDP (c : Chunk) : DPChunk :=
  { text := c.text, chunk_id := c.chunk_id, start_word := c.start_word, end_word := c.end_word }

/-- The chunk-accumulating loop of `DocumentParser.chunk_text`. -/
def dpChunkLoop (words : List PyStr) (cs : Nat) : List Nat → Nat → List DPChunk
  | [], _ => []
  | i :: rest, cid =>
    { text := joinSpace ((words.drop i).take cs)
      chunk_id := cid
      start_word := i
      end_word := min (i + cs) words.length } :: dpChunkLoop words cs rest (cid + 1)

/-- `DocumentParser.chunk_text(text, chunk_size, overlap)` from
src/Chunking/document_parser.py: textually the same sliding-window loop as
`TextChunker.chunk_text`, producing dictionaries without the
`chunk_size`/`overlap_size` entries. -/
def dpChunkText (text : PyStr) (cs ov : Nat) : Except PyStr (List DPChunk) :=
  if text.isEmpty then .ok []
  else
    let words := splitWords text
    match pyRange0 words.length ((cs : Int) - (ov : Int)) with
    | .error e => .error e
    | .ok idxs => .ok (dpChunkLoop words cs idxs 0)

/-- One retrieval result as returned by `QdrantVectorDB.search`: the chunk
text, the similarity score and the remaining payload as metadata.  Scores are
floating-point numbers in the source; the orchestrator never computes with
them — it only copies them and renders them (with two decimals) into the
context header — so a score is carried here as its rendered text, an opaque
string. -/
structure RetrievedDoc where
  text : PyStr
  score : PyStr
  metadata : List (PyStr × PyStr)
deriving DecidableEq

/-- `doc.get("metadata", {}).get("filename", "Unknown source")` from
`RAGPipeline._prepare_context`. -/
def sourceName (d : RetrievedDoc) : PyStr :=
  match d.metadata.lookup "filename".data with
  | some v => v
  | none => "Unknown source".data

/-- The per-chunk context entry
`f"[Source: {source} (Relevance: {score:.2f})]\n{text}"` of
`RAGPipeline._prepare_context`. -/
def formatChunk (d : RetrievedDoc) : PyStr :=
  "[Source: ".data ++ sourceName d ++ " (Relevance: ".data ++ d.score
    ++ ")]\n".data ++ d.text

/-- Python `"\n\n".join(parts)`. -/
def joinBlank : List PyStr → PyStr
  | [] => []
  | [p] => p
  | p :: ps => p ++ "\n\n".data ++ joinBlank ps

/-- The accumulation loop of `RAGPipeline._prepare_context`: walks the ranked
results, appending each formatted chunk while the running length (formatted
length plus two separator characters per accepted chunk) stays within
`maxLength`; at the first chunk that would overflow, if nothing has been
accepted yet the chunk is truncated to `maxLength - current_length - 50`
characters plus an ellipsis — and only kept if more than 100 characters of
space remain — then the loop stops. -/
def prepareContextAux (maxLength : Nat) : List RetrievedDoc → List PyStr → Nat → List PyStr
  | [], parts, _ => parts.reverse
  | d :: rest, parts, currentLength =>
    let fc := formatChunk d
    if maxLength < currentLength + fc.length then
      (if parts.isEmpty then
        (let remaining : Int := (maxLength : Int) - (currentLength : Int) - 50
         if 100 < remaining then (fc.take remaining.toNat ++ "...".data) :: parts
         else parts)
       else parts).reverse
    else prepareContextAux maxLength rest (fc :: parts) (currentLength + fc.length + 2)

/-- `RAGPipeline._prepare_context(retrieved_docs, max_length)`: empty input
yields the empty string, otherwise the accepted formatted chunks are joined
with blank lines. -/
def prepareContext (docs : List RetrievedDoc) (maxLength : Nat) : PyStr :=
  if docs.isEmpty then [] else joinBlank (prepareContextAux maxLength docs [] 0)

/-- An embedding vector.  The orchestrator treats vectors as opaque values
(it only passes them from the embedding service to the vector index), so they
are modelled by an abstract token. -/
abbrev Vec := Nat

/-- A chat message dictionary `{"role": ..., "content": ...}`. -/
structure Message where
  role : PyStr
  content : PyStr
deriving DecidableEq

/-- One entry of the `sources` list in a query/chat result: a text preview,
the retrieval score and the metadata. -/
structure Source where
  text : PyStr
  score : PyStr
  metadata : List (PyStr × PyStr)
deriving DecidableEq

/-- The three external capabilities the `RAGPipeline` composes, as
function-valued parameters.  `Except.error e` models the call raising an
exception with message `e`; `Except.ok` models a normal return.
`encode` is `embedding_service.encode`, `search` is `vector_db.search`
(taking the limit and the score threshold, the latter opaque here),
`generate` is `llm_service.generate_response(prompt, context)` and `chatGen`
is `llm_service.chat(messages)`. -/
structure Services where
  encode : PyStr → Except PyStr Vec
  search : Vec → Nat → Int → Except PyStr (List RetrievedDoc)
  generate : PyStr → Option PyStr → Except PyStr PyStr
  chatGen : List Message → Except PyStr PyStr

/-- The pipeline's retrieval configuration: `self.top_k` and
`self.score_threshold`. -/
structure RAGConfig where
  topK : Nat
  scoreThreshold : Int
deriving DecidableEq

/-- One `sources` entry of a query/chat result:
`{"text": doc["text"][:200] + "..." if len(doc["text"]) > 200 else doc["text"],
"score": doc["score"], "metadata": doc["metadata"]}`. -/
def mkSource (d : RetrievedDoc) : Source :=
  { text := if 200 < d.text.length then d.text.take 200 ++ "...".data else d.text
    score := d.score
    metadata := d.metadata }

/-- The `sources` list built by both `RAGPipeline.query` and
`RAGPipeline.chat` from the retrieved documents, in retrieval order. -/
def sourcesOf (docs : List RetrievedDoc) : List Source := docs.map mkSource

/-- The result dictionary of `RAGPipeline.query`.  `error` is `none` when the
`"error"` key is absent. -/
structure QueryResult where
  question : PyStr
  answer : PyStr
  sources : List Source
  context_used : Bool
  num_sources : Nat
  error : Option PyStr
deriving DecidableEq

/-- The fixed user-facing answer of `query`'s exception handler. -/
def queryApology : PyStr :=
  "I apologize, but I encountered an error while processing your question. Please try again.".data

/-- The result `query` returns from its `except` block. -/
def queryFallback (q e : PyStr) : QueryResult :=
  { question := q, answer := queryApology, sources := [], context_used := false
    num_sources := 0, error := some e }

/-- The body of the `try` block of `RAGPipeline.query(question,
include_context, max_context_length)`: embed the question (unconditionally),
search the vector index only when `include_context` is true, assemble the
context, generate with the question and (`include_context` only) the context,
and build the result.  `context_used` is `len(context) > 0` (the context is
always a string here, never `None`). -/
def queryRun (svc : Services) (cfg : RAGConfig) (question : PyStr)
    (includeContext : Bool) (maxContextLength : Nat) : Except PyStr QueryResult := do
  let emb ← svc.encode question
  let docs ← if includeContext then svc.search emb cfg.topK cfg.scoreThreshold else pure []
  let ctx := prepareContext docs maxContextLength
  let ans ← svc.generate question (if includeContext then some ctx else none)
  pure { question := question, answer := ans, sources := sourcesOf docs
         context_used := !ctx.isEmpty, num_sources := docs.length, error := none }

/-- `RAGPipeline.query`: the whole pipeline body runs inside one
`try`/`except Exception`, so any raised exception is converted into the
fallback result and `query` always returns a dictionary. -/
def query (svc : Services) (cfg : RAGConfig) (question : PyStr)
    (includeContext : Bool) (maxContextLength : Nat) : QueryResult :=
  match queryRun svc cfg question includeContext maxContextLength with
  | .ok r => r
  | .error e => queryFallback question e

/-- The result dictionary of `RAGPipeline.chat`.  `num_sources` is `none`
when the `"num_sources"` key is absent (short-circuit and error results). -/
structure ChatResult where
  answer : PyStr
  sources : List Source
  context_used : Bool
  num_sources : Option Nat
  error : Option PyStr
deriving DecidableEq

/-- The fixed user-facing answer of `chat`'s exception handler. -/
def chatApology : PyStr :=
  "I apologize, but I encountered an error. Please try rephrasing your question.".data

/-- The fixed answer `chat` returns when no user message is present. -/
def noQuestionAnswer : PyStr :=
  "I didn\x27t receive a question. Please ask me something about financial literacy.".data

/-- The short-circuit result of `chat` when `messages` holds no user turn. -/
def noQuestionResult : ChatResult :=
  { answer := noQuestionAnswer, sources := [], context_used := false
    num_sources := none, error := none }

/-- The result `chat` returns from its `except` block (which wraps only the
generation call). -/
def chatFallback (e : PyStr) : ChatResult :=
  { answer := chatApology, sources := [], context_used := false
    num_sources := none, error := some e }

/-- The success result of `chat`. -/
def chatSuccess (ans : PyStr) (docs : List RetrievedDoc) (ctx : PyStr) : ChatResult :=
  { answer := ans, sources := sourcesOf docs, context_used := !ctx.isEmpty
    num_sources := some docs.length, error := none }

/-- `msg.get("role") == "user"`. -/
def isUserMsg (m : Message) : Bool := m.role == "user".data

/-- The content of `user_messages[-1]`, the most recent `role == "user"`
message, when one exists. -/
def latestUser (msgs : List Message) : Option Message :=
  (msgs.filter isUserMsg).getLast?

/-- The enhanced final message content
`f"Context from financial documents:\n{context}\n\nQuestion: {latest_question}"`. -/
def enhancedContent (ctx latest : PyStr) : PyStr :=
  "Context from financial documents:\n".data ++ ctx ++ "\n\nQuestion: ".data ++ latest

/-- `enhanced_messages = messages.copy(); enhanced_messages[-1] = m`:
replace the final element of the list. -/
def replaceLast (msgs : List Message) (m : Message) : List Message :=
  msgs.dropLast ++ [m]

/-- The retrieval phase of `RAGPipeline.chat`, which in the source runs
OUTSIDE the `try`/`except`: when `include_context` is true and the latest
user question is non-empty, embed it and search; an exception here is not
caught by `chat`. -/
def chatRetrieve (svc : Services) (cfg : RAGConfig) (includeContext : Bool)
    (latest : PyStr) : Except PyStr (List RetrievedDoc × PyStr) :=
  if includeContext && !latest.isEmpty then do
    let emb ← svc.encode latest
    let docs ← svc.search emb cfg.topK cfg.scoreThreshold
    pure (docs, prepareContext docs 1500)
  else pure ([], [])

/-- `RAGPipeline.chat(messages, include_context)`.  The outer `Except` is
`chat`'s own boundary: `.error e` means an exception escaped `chat`
uncaught (only the generation call sits inside its `try`/`except`). -/
def chat (svc : Services) (cfg : RAGConfig) (messages : List Message)
    (includeContext : Bool) : Except PyStr ChatResult :=
  match latestUser messages with
  | none => .ok noQuestionResult
  | some lastUser =>
    let latest := lastUser.content
    match chatRetrieve svc cfg includeContext latest with
    | .error e => .error e
    | .ok (docs, ctx) =>
      let enhanced :=
        if !ctx.isEmpty && includeContext then
          replaceLast messages { role := "user".data, content := enhancedContent ctx latest }
        else messages
      match svc.chatGen enhanced with
      | .ok resp => .ok (chatSuccess resp docs ctx)
      | .error e => .ok (chatFallback e)

/-- The external capabilities used by
`ContentExtractorAgent._extract_comprehensive_content`: the sentence
transformer (`model.encode([q])[0]`) and the vector store's `search`
(called with a `limit` only). -/
structure AgentServices where
  encode : PyStr → Vec
  search : Vec → Nat → List RetrievedDoc

/-- Strategy 2 query: `f"{topic} technical specifications parameters standards"`. -/
def technicalQuery (topic : PyStr) : PyStr :=
  topic ++ " technical specifications parameters standards".data

/-- Strategy 3 query: `f"{topic} applications case studies real world examples industry"`. -/
def applicationQuery (topic : PyStr) : PyStr :=
  topic ++ " applications case studies real world examples industry".data

/-- Strategy 4 query: `f"{topic} safety procedures troubleshooting maintenance issues"`. -/
def safetyQuery (topic : PyStr) : PyStr :=
  topic ++ " safety procedures troubleshooting maintenance issues".data

/-- Strategy 5 query: `f"{topic} best practices industry standards guidelines protocols"`. -/
def standardsQuery (topic : PyStr) : PyStr :=
  topic ++ " best practices industry standards guidelines protocols".data

/-- Strategy 1 results: direct topic search with `limit=10`. -/
def directChunks (svc : AgentServices) (topic : PyStr) : List RetrievedDoc :=
  svc.search (svc.encode topic) 10

/-- Strategy 2 results, `limit=8`. -/
def technicalChunks (svc : AgentServices) (topic : PyStr) : List RetrievedDoc :=
  svc.search (svc.encode (technicalQuery topic)) 8

/-- Strategy 3 results, `limit=8`. -/
def applicationChunks (svc : AgentServices) (topic : PyStr) : List RetrievedDoc :=
  svc.search (svc.encode (applicationQuery topic)) 8

/-- Strategy 4 results, `limit=8`. -/
def safetyChunks (svc : AgentServices) (topic : PyStr) : List RetrievedDoc :=
  svc.search (svc.encode (safetyQuery topic)) 8

/-- Strategy 5 results, `limit=8`. -/
def standardsChunks (svc : AgentServices) (topic : PyStr) : List RetrievedDoc :=
  svc.search (svc.encode (standardsQuery topic)) 8

/-- `all_chunks = direct_chunks + technical_chunks + application_chunks +
safety_chunks + standards_chunks` — the merged result list of
`_extract_comprehensive_content` (line 117 of content_extractor.py), a plain
concatenation. -/
def allChunks (svc : AgentServices) (topic : PyStr) : List RetrievedDoc :=
  directChunks svc topic ++ technicalChunks svc topic ++ applicationChunks svc topic
    ++ safetyChunks svc topic ++ standardsChunks svc topic

/-- Python `"\n".join(parts)`. -/
def joinNL : List PyStr → PyStr
  | [] => []
  | [p] => p
  | p :: ps => p ++ '\n' :: joinNL ps

/-- The dictionary returned by `_extract_comprehensive_content` (fields the
claims touch: the combined context, the total source count, and the
per-strategy chunk counts). -/
structure ExtractionResults where
  combined_context : PyStr
  total_sources : Nat
  countDirect : Nat
  countTechnical : Nat
  countApplication : Nat
  countSafety : Nat
  countStandards : Nat
deriving DecidableEq

/-- `ContentExtractorAgent._extract_comprehensive_content(topic)`: runs the
five strategy searches, concatenates all result sets, and joins their texts
with newlines. -/
def extractComprehensiveContent (svc : AgentServices) (topic : PyStr) : ExtractionResults :=
  { combined_context := joinNL ((allChunks svc topic).map RetrievedDoc.text)
    total_sources := (allChunks svc topic).length
    countDirect := (directChunks svc topic).length
    countTechnical := (technicalChunks svc topic).length
    countApplication := (applicationChunks svc topic).length
    countSafety := (safetyChunks svc topic).length
    countStandards := (standardsChunks svc topic).length }

/-- One Qdrant `PointStruct` built by `QdrantVectorDB.add_documents`. -/
structure DBPoint where
  id : PyStr
  vector : Vec
  payload : List (PyStr × PyStr)
deriving DecidableEq

/-- Python dict assignment `m[k] = v` on a metadata dictionary: overwrite an
existing entry for `k`, or append a new one. -/
def dictSet (m : List (PyStr × PyStr)) (k v : PyStr) : List (PyStr × PyStr) :=
  if m.any (fun p => p.1 == k) then m.map (fun p => if p.1 == k then (k, v) else p)
  else m ++ [(k, v)]

/-- `QdrantVectorDB.add_documents(texts, embeddings, metadatas, ids)` — the
same code in src/vectordb/qdrant_client.py and src/vectorstore/qdrant_client.py.
`genId` models the `uuid.uuid4()` generator for the default ids (one fresh id
per text).  The lengths of `texts`, `embeddings` and `metadatas` are compared
and a `ValueError` raised on mismatch; then the four lists are combined with
Python `zip`, which stops at the shortest.  On success the upserted points
and the returned `ids` list are produced; `.error` models the raised
exception, before anything is written. -/
def addDocuments (genId : Nat → PyStr) (texts : List PyStr) (embeddings : List Vec)
    (metadatas : List (List (PyStr × PyStr))) (idsArg : Option (List PyStr)) :
    Except PyStr (List DBPoint × List PyStr) :=
  let ids := match idsArg with
    | none => (List.range texts.length).map genId
    | some l => l
  if texts.length ≠ embeddings.length ∨ texts.length ≠ metadatas.length then
    .error "texts, embeddings, and metadatas must have the same length".data
  else
    let points := (texts.zip (embeddings.zip (metadatas.zip ids))).map
      (fun q => { id := q.2.2.2, vector := q.2.1, payload := dictSet q.2.2.1 "text".data q.1 })
    .ok (points, ids)

/-- The default pipeline configuration (`top_k=5`; the score threshold is
opaque here). -/
def cfg0 : RAGConfig := ⟨5, 0⟩

/-- A service environment whose embedding call raises and whose other calls
succeed. -/
def svcEmbFail : Services :=
  { encode := fun _ => .error "emb down".data
    search := fun _ _ _ => .ok []
    generate := fun _ _ => .ok "ok".data
    chatGen := fun _ => .ok "ok".data }

/-- A service environment whose generation calls raise and whose embedding
and search succeed. -/
def svcGenFail : Services :=
  { encode := fun _ => .ok 0
    search := fun _ _ _ => .ok []
    generate := fun _ _ => .error "gen down".data
    chatGen := fun _ => .error "gen down".data }

/-- A probing service environment: retrieval succeeds with no results, and
the chat-generation call answers with the concatenation of the contents of
every message it receives, making visible exactly which turns reach the
generation gateway. -/
def svcProbe : Services :=
  { encode := fun _ => .ok 0
    search := fun _ _ _ => .ok []
    generate := fun _ _ => .ok "ok".data
    chatGen := fun ms => .ok (ms.foldr (fun m acc => m.content ++ acc) []) }

/-- `svcProbe` with an embedding service that only answers for the query
`"Q"`: used to exhibit that chat's retrieval embeds nothing but the latest
user turn. -/
def svcProbeAlt : Services :=
  { encode := fun t => if t = "Q".data then .ok 0 else .error "unexpected embed".data
    search := fun _ _ _ => .ok []
    generate := fun _ _ => .ok "ok".data
    chatGen := fun ms => .ok (ms.foldr (fun m acc => m.content ++ acc) []) }

/-- A service environment whose search always returns one fixed document. -/
def svcOneDoc : Services :=
  { encode := fun _ => .ok 0
    search := fun _ _ _ => .ok [⟨"hello".data, "0.9".data, []⟩]
    generate := fun _ _ => .ok "ok".data
    chatGen := fun _ => .ok "ok".data }

/-- A fixed retrieval result shared by several strategy searches. -/
def d0 : RetrievedDoc := ⟨"Stocks represent ownership in a company.".data, "0.90".data, []⟩

/-- An agent environment in which every strategy search returns the same
single chunk `d0`. -/
def svcDup : AgentServices := { encode := fun _ => 0, search := fun _ _ => [d0] }

/-- The three-turn conversation used to probe chat's generation input. -/
def msgsABQ : List Message :=
  [⟨"user".data, "A".data⟩, ⟨"assistant".data, "B".data⟩, ⟨"user".data, "Q".data⟩]

lemma dpChunkLoop_eq_map (words : List PyStr) (cs ov : Nat) :
    ∀ (idxs : List Nat) (cid : Nat),
      dpChunkLoop words cs idxs cid = (chunkLoop words cs ov idxs cid).map chunkToDP
  | [], _ => rfl
  | i :: rest, cid => by
    simp [dpChunkLoop, chunkLoop, chunkToDP, mkChunk, dpChunkLoop_eq_map words cs ov rest]

/-- The two chunkers agree: `DocumentParser.chunk_text` is
`TextChunker.chunk_text` with the extra per-chunk fields dropped. -/
lemma dpChunkText_eq_map (text : PyStr) (cs ov : Nat) :
    dpChunkText text cs ov = (chunkText text cs ov).map (List.map chunkToDP) := by
  unfold dpChunkText chunkText
  cases h : text.isEmpty
  · simp only [h, Bool.false_eq_true, if_false]
    cases hr : pyRange0 (splitWords text).length ((cs : Int) - (ov : Int)) with
    | error e => simp [hr, Except.map]
    | ok idxs => simp [hr, Except.map, dpChunkLoop_eq_map (splitWords text) cs ov]
  · simp [h, Except.map]

lemma chunkLoop_length (words : List PyStr) (cs ov : Nat) :
    ∀ (idxs : List Nat) (cid : Nat), (chunkLoop words cs ov idxs cid).length = idxs.length
  | [], _ => rfl
  | _ :: rest, cid => by simp [chunkLoop, chunkLoop_length words cs ov rest]

lemma chunkLoop_get (words : List PyStr) (cs ov : Nat) :
    ∀ (idxs : List Nat) (cid k : Nat) (h : k < idxs.length),
      (chunkLoop words cs ov idxs cid).get
          ⟨k, by rw [chunkLoop_length]; exact h⟩ =
        mkChunk words cs ov (idxs.get ⟨k, h⟩) (cid + k)
  | i :: rest, cid, 0, h => by simp [chunkLoop]
  | i :: rest, cid, k + 1, h => by
    have hk : k < rest.length := by simpa using h
    have := chunkLoop_get words cs ov rest (cid + 1) k hk
    simp only [chunkLoop, List.get_cons_succ, List.length_cons] at *
    rw [this]
    congr 1
    omega

/-- With a valid configuration (`ov < cs`) the chunker succeeds and produces
exactly the chunks at indices `0, step, 2*step, ...` where
`step = cs - ov`. -/
lemma chunkText_ok (text : PyStr) (cs ov : Nat) (h : ov < cs) :
    chunkText text cs ov =
      .ok (chunkLoop (splitWords text) cs ov
        ((List.range (numIdx (splitWords text).length (cs - ov))).map
          (fun k => k * (cs - ov))) 0) := by
  unfold chunkText
  cases he : text.isEmpty
  · have hstep0 : ((cs : Int) - (ov : Int)) ≠ 0 := by omega
    have hstepneg : ¬ ((cs : Int) - (ov : Int)) < 0 := by omega
    have htn : ((cs : Int) - (ov : Int)).toNat = cs - ov := by omega
    simp [pyRange0, hstep0, hstepneg, htn]
  · have : text = [] := by simpa [List.isEmpty_iff] using he
    subst this
    have hz : (cs - ov - 1) / (cs - ov) = 0 := Nat.div_eq_of_lt (by omega)
    simp [splitWords, splitWordsAux, numIdx, hz, chunkLoop]

lemma joinBlank_length :
    ∀ l : List PyStr, (joinBlank l).length = (l.map List.length).sum + 2 * (l.length - 1)
  | [] => rfl
  | [p] => by simp [joinBlank]
  | p :: q :: ps => by
    have ih := joinBlank_length (q :: ps)
    show (p ++ "\n\n".data ++ joinBlank (q :: ps)).length = _
    simp only [List.length_append, List.map_cons, List.sum_cons, List.length_cons,
      List.length_nil] at ih ⊢
    have h2 : ("\n\n".data).length = 2 := rfl
    omega

lemma joinBlank_reverse_length (l : List PyStr) :
    (joinBlank l.reverse).length = (l.map List.length).sum + 2 * (l.length - 1) := by
  rw [joinBlank_length, List.map_reverse, List.sum_reverse, List.length_reverse]

lemma prepareContextAux_length_le (maxLength : Nat) :
    ∀ (docs : List RetrievedDoc) (parts : List PyStr) (curr : Nat),
      (parts.map List.length).sum + 2 * (parts.length - 1) ≤ maxLength →
      (parts.map List.length).sum + 2 * parts.length ≤ curr →
      (joinBlank (prepareContextAux maxLength docs parts curr)).length ≤ maxLength
  | [], parts, curr, h1, _ => by
    rw [prepareContextAux, joinBlank_reverse_length]
    exact h1
  | d :: rest, parts, curr, h1, h2 => by
    simp only [prepareContextAux]
    split
    · split
      · rename_i hover hp
        have hpnil : parts = [] := by simpa [List.isEmpty_iff] using hp
        subst hpnil
        split
        · rename_i hrem
          have hcast : curr + 150 < maxLength := by omega
          have htn : ((maxLength : Int) - (curr : Int) - 50).toNat = maxLength - curr - 50 := by
            omega
          rw [htn]
          simp only [List.reverse_cons, List.reverse_nil, List.nil_append]
          have hj : ∀ x : PyStr, joinBlank [x] = x := fun _ => rfl
          rw [hj]
          have hdot : ("...".data).length = 3 := rfl
          simp only [List.length_append, List.length_take, List.length_cons, List.length_nil]
          omega
        · simp [joinBlank]
      · rename_i hover hp
        rw [joinBlank_reverse_length]
        exact h1
    · rename_i hover
      push_neg at hover
      apply prepareContextAux_length_le maxLength rest
      · simp only [List.map_cons, List.sum_cons, List.length_cons]
        omega
      · simp only [List.map_cons, List.sum_cons, List.length_cons]
        omega

lemma chunkLoop_range_map (words : List PyStr) (cs ov step m : Nat) :
    chunkLoop words cs ov ((List.range m).map (fun k => k * step)) 0 =
      (List.range m).map (fun k => mkChunk words cs ov (k * step) k) := by
  apply List.ext_get
  · simp [chunkLoop_length]
  · intro k h1 h2
    have hk : k < m := by simpa using h2
    have hkidx : k < ((List.range m).map (fun k => k * step)).length := by simpa using hk
    have hg := chunkLoop_get words cs ov ((List.range m).map (fun k => k * step)) 0 k hkidx
    rw [hg]
    simp [List.get_eq_getElem, List.getElem_map, List.getElem_range, Nat.zero_add]

lemma ceil_mul_ge (n step : Nat) (hstep : 0 < step) : n ≤ numIdx n step * step := by
  unfold numIdx
  have hdm := Nat.div_add_mod (n + step - 1) step
  have hmod := Nat.mod_lt (n + step - 1) hstep
  have hcomm : (n + step - 1) / step * step = step * ((n + step - 1) / step) :=
    Nat.mul_comm _ _
  omega

/-- C8: for every ranked result list and every `max_length`, the context
string returned by `RAGPipeline._prepare_context` is never longer than
`max_length` (hence in particular never longer than `max_length` plus the
small reserved buffer of the single-oversized-first-chunk truncation, which
reserves 50 characters and appends an ellipsis), and for an empty result
list the assembler returns the empty string, not `None`. -/
theorem c8_context_budget (docs : List RetrievedDoc) (maxLength : Nat) :
    (prepareContext docs maxLength).length ≤ maxLength ∧
      prepareContext [] maxLength = [] := by
  constructor
  · unfold prepareContext
    split
    · simp
    · exact prepareContextAux_length_le maxLength docs [] 0 (by simp) (by simp)
  · rfl

/-- C4 counterexample: with `chunk_size = 3` and `overlap = 5` (so
`overlap > chunk_size`) on the three-word text `"a b c"`, both chunkers
silently return an empty chunk list — no `InvalidConfiguration` (or any
other) error is raised, and the caller cannot tell this apart from an input
with no content. -/
theorem c4_overlap_counterexample :
    chunkText "a b c".data 3 5 = .ok [] ∧ dpChunkText "a b c".data 3 5 = .ok [] :=
  ⟨rfl, rfl⟩

/-- C4 (amended): the chunkers perform no configuration validation.  For
`overlap > chunk_size` the Python range step is negative and the operation
silently returns the empty chunk list; for `overlap = chunk_size` on
non-empty text the zero range step makes the operation fail — with Python's
`ValueError` from `range`, not a dedicated `InvalidConfiguration` error;
empty text always yields the empty list, for any parameters.  (It never loops
forever.) -/
theorem c4_overlap_validation (text : PyStr) (cs ov : Nat) :
    (cs < ov → chunkText text cs ov = .ok [] ∧ dpChunkText text cs ov = .ok []) ∧
    (cs = ov → text ≠ [] →
      chunkText text cs ov = .error "range() arg 3 must not be zero".data ∧
      dpChunkText text cs ov = .error "range() arg 3 must not be zero".data) ∧
    (text = [] → chunkText text cs ov = .ok [] ∧ dpChunkText text cs ov = .ok []) := by
  refine ⟨fun hlt => ?_, fun heq hne => ?_, fun hnil => ?_⟩
  · have hneg : ((cs : Int) - (ov : Int)) < 0 := by omega
    have hnz : ¬ ((cs : Int) - (ov : Int)) = 0 := by omega
    constructor <;>
      simp [chunkText, dpChunkText, pyRange0, hnz, hneg, chunkLoop, dpChunkLoop]
  · have hz : ((cs : Int) - (ov : Int)) = 0 := by omega
    have hne2 : text.isEmpty = false := by simpa [List.isEmpty_iff] using hne
    constructor <;> simp [chunkText, dpChunkText, pyRange0, hz, hne2]
  · subst hnil
    constructor <;> rfl

/-- C4 witness: concrete instances of the three cases of
`c4_overlap_validation`. -/
theorem c4_overlap_witness :
    (chunkText "a b".data 2 3 = .ok [] ∧ dpChunkText "a b".data 2 3 = .ok []) ∧
    (chunkText "a b".data 2 2 = .error "range() arg 3 must not be zero".data ∧
      dpChunkText "a b".data 2 2 = .error "range() arg 3 must not be zero".data) ∧
    (chunkText [] 4 2 = .ok [] ∧ dpChunkText [] 4 2 = .ok []) :=
  ⟨(c4_overlap_validation "a b".data 2 3).1 (by decide),
   (c4_overlap_validation "a b".data 2 2).2.1 rfl (by decide),
   (c4_overlap_validation [] 4 2).2.2 rfl⟩

/-- C6 counterexample: the text `"a b c d e"` has 5 words, strictly fewer
than `chunk_size = 10`, and `overlap = 8` is a valid overlap
(`0 ≤ 8 < 10`), yet chunking yields three chunks, not one: the range step is
`10 - 8 = 2`, so windows start at word 0, 2 and 4. -/
theorem c6_single_chunk_counterexample :
    chunkText "a b c d e".data 10 8 =
      .ok [{ text := "a b c d e".data, chunk_id := 0, start_word := 0, end_word := 5
             chunk_size := 5, overlap_size := 0 },
           { text := "c d e".data, chunk_id := 1, start_word := 2, end_word := 5
             chunk_size := 3, overlap_size := 8 },
           { text := "e".data, chunk_id := 2, start_word := 4, end_word := 5
             chunk_size := 1, overlap_size := 8 }] := rfl

/-- C6 (amended): chunking yields exactly one chunk covering the whole input
(start 0, end = word count, `overlap_size = 0`) precisely when the input has
at least one word and at most `chunk_size - overlap` words (the range step) —
not merely fewer than `chunk_size` words; and the input must contain a word,
not merely be a non-empty (possibly all-whitespace) string. -/
theorem c6_single_chunk (text : PyStr) (cs ov : Nat) (hov : ov < cs)
    (h1 : 1 ≤ (splitWords text).length) (h2 : (splitWords text).length ≤ cs - ov) :
    chunkText text cs ov =
      .ok [{ text := joinSpace (splitWords text), chunk_id := 0, start_word := 0
             end_word := (splitWords text).length
             chunk_size := (splitWords text).length, overlap_size := 0 }] ∧
    dpChunkText text cs ov =
      .ok [{ text := joinSpace (splitWords text), chunk_id := 0, start_word := 0
             end_word := (splitWords text).length }] := by
  have hstep : 0 < cs - ov := by omega
  have hm : numIdx (splitWords text).length (cs - ov) = 1 := by
    unfold numIdx
    exact Nat.div_eq_of_lt_le (by omega) (by omega)
  have hfirst :
      chunkText text cs ov = .ok [mkChunk (splitWords text) cs ov 0 0] := by
    rw [chunkText_ok text cs ov hov, hm]
    have hr1 : List.range 1 = [0] := rfl
    rw [hr1]
    simp [chunkLoop, Nat.zero_mul]
  have hchunk : mkChunk (splitWords text) cs ov 0 0 =
      { text := joinSpace (splitWords text), chunk_id := 0, start_word := 0
        end_word := (splitWords text).length
        chunk_size := (splitWords text).length, overlap_size := 0 } := by
    unfold mkChunk
    have htake : (splitWords text).take cs = splitWords text :=
      List.take_of_length_le (by omega)
    have hcs : (splitWords text).length ≤ cs := by omega
    simp [htake, Nat.min_eq_right hcs]
  refine ⟨by rw [hfirst, hchunk], ?_⟩
  rw [dpChunkText_eq_map text cs ov, hfirst, hchunk]
  rfl

/-- C6 witness: `"hello world"` (2 words) with `chunk_size = 5`,
`overlap = 2` yields one whole-input chunk. -/
theorem c6_single_chunk_witness :
    chunkText "hello world".data 5 2 =
      .ok [{ text := "hello world".data, chunk_id := 0, start_word := 0, end_word := 2
             chunk_size := 2, overlap_size := 0 }] ∧
    dpChunkText "hello world".data 5 2 =
      .ok [{ text := "hello world".data, chunk_id := 0, start_word := 0, end_word := 2 }] :=
  c6_single_chunk "hello world".data 5 2 (by decide) (by decide) (by decide)

/-- C7 counterexample: `"a b c d e"` with `chunk_size = 10`, `overlap = 8`
(a valid pair, `0 ≤ 8 < 10`) produces chunks with word ranges
`[0,5), [2,5), [4,5)`.  The consecutive pair formed by chunks 0 and 1 —
neither of which is the final chunk — overlaps by `5 - 2 = 3` words, not by
`overlap = 8`. -/
theorem c7_coverage_counterexample :
    (chunkText "a b c d e".data 10 8).toOption.map
        (List.map fun c => (c.start_word, c.end_word)) =
      some [(0, 5), (2, 5), (4, 5)] ∧ (5 : Nat) - 2 = 3 ∧ (3 : Nat) ≠ 8 :=
  ⟨rfl, rfl, by decide⟩

/-- C7 (amended): for every text and valid `(chunk_size, overlap)` the chunk
word ranges `[start_word, end_word)` jointly cover every word index — this
half of the claim holds.  Consecutive chunks overlap by exactly `overlap`
words only for pairs whose earlier chunk has an untruncated window
(`start_word + chunk_size ≤ len(words)`), which can fail even for pairs not
involving the final chunk (whenever `overlap > chunk_size / 2` makes several
trailing windows reach past the end of the text).  `DocumentParser.chunk_text`
produces the same ranges. -/
theorem c7_chunk_coverage (text : PyStr) (cs ov : Nat) (hov : ov < cs)
    (chunks : List Chunk) (hok : chunkText text cs ov = .ok chunks) :
    (∀ j, j < (splitWords text).length → ∃ c ∈ chunks, c.start_word ≤ j ∧ j < c.end_word) ∧
    (∀ k (hk1 : k + 1 < chunks.length),
      (chunks.get ⟨k, Nat.lt_of_succ_lt hk1⟩).start_word + cs ≤ (splitWords text).length →
      (chunks.get ⟨k, Nat.lt_of_succ_lt hk1⟩).end_word
          - (chunks.get ⟨k + 1, hk1⟩).start_word = ov) ∧
    dpChunkText text cs ov = .ok (chunks.map chunkToDP) := by
  have hstep : 0 < cs - ov := by omega
  have hform := chunkText_ok text cs ov hov
  rw [hok] at hform
  have hchunks : chunks =
      (List.range (numIdx (splitWords text).length (cs - ov))).map
        (fun k => mkChunk (splitWords text) cs ov (k * (cs - ov)) k) := by
    injection hform with h
    rw [h, chunkLoop_range_map]
  refine ⟨?_, ?_, ?_⟩
  · intro j hj
    set words := splitWords text with hwords
    set step := cs - ov with hstepdef
    set n := words.length with hn
    set m := numIdx n step with hm
    have hdm := Nat.div_add_mod j step
    have hmod := Nat.mod_lt j hstep
    have hcomm : j / step * step = step * (j / step) := Nat.mul_comm _ _
    have hle : j / step * step ≤ j := Nat.div_mul_le_self j step
    have hlt : j < j / step * step + step := by omega
    have hnm : n ≤ m * step := ceil_mul_ge n step hstep
    have hkm : j / step < m := by
      by_contra hng
      push_neg at hng
      have : m * step ≤ j / step * step := Nat.mul_le_mul_right step hng
      omega
    refine ⟨mkChunk words cs ov (j / step * step) (j / step), ?_, ?_, ?_⟩
    · rw [hchunks]
      exact List.mem_map.mpr ⟨j / step, List.mem_range.mpr hkm, rfl⟩
    · simpa [mkChunk] using hle
    · simp only [mkChunk]
      have hcs : j < j / step * step + cs := by omega
      exact lt_min hcs hj
  · intro k hk1 hfull
    have hlen : chunks.length = numIdx (splitWords text).length (cs - ov) := by
      rw [hchunks]; simp
    have hkm : k < numIdx (splitWords text).length (cs - ov) := by omega
    have hk1m : k + 1 < numIdx (splitWords text).length (cs - ov) := by omega
    have hgk : chunks.get ⟨k, Nat.lt_of_succ_lt hk1⟩ =
        mkChunk (splitWords text) cs ov (k * (cs - ov)) k := by
      simp [hchunks, List.get_eq_getElem, List.getElem_map, List.getElem_range]
    have hgk1 : chunks.get ⟨k + 1, hk1⟩ =
        mkChunk (splitWords text) cs ov ((k + 1) * (cs - ov)) (k + 1) := by
      simp [hchunks, List.get_eq_getElem, List.getElem_map, List.getElem_range]
    rw [hgk] at hfull ⊢
    rw [hgk1]
    simp only [mkChunk] at hfull ⊢
    have hsucc : (k + 1) * (cs - ov) = k * (cs - ov) + (cs - ov) := Nat.succ_mul _ _
    have hmin : min (k * (cs - ov) + cs) (splitWords text).length = k * (cs - ov) + cs :=
      Nat.min_eq_left hfull
    omega
  · rw [dpChunkText_eq_map, hok]
    rfl

/-- C7 witness: on `"a b c"` with `chunk_size = 2`, `overlap = 1`, word
index 1 is covered by some chunk, and the first consecutive pair (whose
earlier chunk's window is untruncated) overlaps by exactly 1 word. -/
theorem c7_coverage_witness :
    (∃ c ∈ ([{ text := "a b".data, chunk_id := 0, start_word := 0, end_word := 2
               chunk_size := 2, overlap_size := 0 },
             { text := "b c".data, chunk_id := 1, start_word := 1, end_word := 3
               chunk_size := 2, overlap_size := 1 },
             { text := "c".data, chunk_id := 2, start_word := 2, end_word := 3
               chunk_size := 1, overlap_size := 1 }] : List Chunk),
        c.start_word ≤ 1 ∧ 1 < c.end_word) ∧
    dpChunkText "a b c".data 2 1 =
      .ok (List.map chunkToDP
        [{ text := "a b".data, chunk_id := 0, start_word := 0, end_word := 2
           chunk_size := 2, overlap_size := 0 },
         { text := "b c".data, chunk_id := 1, start_word := 1, end_word := 3
           chunk_size := 2, overlap_size := 1 },
         { text := "c".data, chunk_id := 2, start_word := 2, end_word := 3
           chunk_size := 1, overlap_size := 1 }]) := by
  have h := c7_chunk_coverage "a b c".data 2 1 (by decide)
    [{ text := "a b".data, chunk_id := 0, start_word := 0, end_word := 2
       chunk_size := 2, overlap_size := 0 },
     { text := "b c".data, chunk_id := 1, start_word := 1, end_word := 3
       chunk_size := 2, overlap_size := 1 },
     { text := "c".data, chunk_id := 2, start_word := 2, end_word := 3
       chunk_size := 1, overlap_size := 1 }] rfl
  exact ⟨h.1 1 (by decide), h.2.2⟩

/-- C5 counterexample: with `include_context = false`, a query against a
service environment whose embedding call raises still returns the error
fallback (with the failure recorded in `error`), so the Embedding Query step
IS performed — contradicting the claim that no embedding call is made and
only the Generating step runs. -/
theorem c5_no_context_counterexample :
    query svcEmbFail cfg0 "q".data false 2000 =
      queryFallback "q".data "emb down".data := rfl

/-- C5 (amended): when `include_context = false`, `query` still calls the
embedding service on the question (an embedding failure therefore still fails
the query); no vector-index search and no context assembly take place (the
result is fully determined by the `encode` and `generate` calls, with
`generate` receiving the question and `None` context), and a successful
result has `sources = []` and `context_used = false`. -/
theorem c5_no_context_path (svc : Services) (cfg : RAGConfig) (q : PyStr) (mcl : Nat) :
    query svc cfg q false mcl =
      (match svc.encode q with
       | .error e => queryFallback q e
       | .ok _ =>
         match svc.generate q none with
         | .error e => queryFallback q e
         | .ok ans =>
           { question := q, answer := ans, sources := [], context_used := false
             num_sources := 0, error := none }) := by
  unfold query queryRun
  cases he : svc.encode q with
  | error e => rfl
  | ok v =>
    cases hg : svc.generate q none with
    | error e =>
      simp [he, hg, prepareContext, Except.bind, bind, pure, Except.pure, sourcesOf]
    | ok a =>
      simp [he, hg, prepareContext, Except.bind, bind, pure, Except.pure, sourcesOf]

/-- C1 counterexample: a single-turn chat against a service environment whose
embedding call raises makes `chat` itself raise — the exception escapes
`chat`'s boundary instead of being converted into a result object, because
the retrieval phase of `chat` runs outside its `try`/`except`. -/
theorem c1_boundary_counterexample :
    chat svcEmbFail cfg0 [⟨"user".data, "hi".data⟩] true = .error "emb down".data := rfl

/-- C1 (amended): `query` never raises — any step failure yields the fixed
apology result with `sources = []`, `context_used = false` and the failure
recorded in `error`; and every result `chat` RETURNS likewise either carries
no error or is the fixed apology result.  But `chat` catches failures of the
generation step only: when `chat` raises (escapes its boundary), the escaped
exception is exactly an exception of the embedding call on the latest user
turn or of the vector-index search during chat's retrieval phase. -/
theorem c1_orchestrator_boundary (svc : Services) (cfg : RAGConfig) (q : PyStr)
    (ic : Bool) (mcl : Nat) (msgs : List Message) (ic2 : Bool) :
    (∀ e, queryRun svc cfg q ic mcl = .error e →
      query svc cfg q ic mcl = queryFallback q e) ∧
    (∀ r, chat svc cfg msgs ic2 = .ok r →
      r.error = none ∨
        (r.answer = chatApology ∧ r.sources = [] ∧ r.context_used = false)) ∧
    (∀ e, chat svc cfg msgs ic2 = .error e →
      ∃ m, latestUser msgs = some m ∧
        (svc.encode m.content = .error e ∨
          ∃ v, svc.encode m.content = .ok v ∧
            svc.search v cfg.topK cfg.scoreThreshold = .error e)) := by
  refine ⟨?_, ?_, ?_⟩
  · intro e he
    unfold query
    rw [he]
  · intro r hr
    unfold chat at hr
    cases hu : latestUser msgs with
    | none =>
      rw [hu] at hr
      injection hr with h
      subst h
      left
      rfl
    | some m =>
      rw [hu] at hr
      dsimp only at hr
      cases hret : chatRetrieve svc cfg ic2 m.content with
      | error e => rw [hret] at hr; cases hr
      | ok p =>
        rw [hret] at hr
        obtain ⟨docs, ctx⟩ := p
        dsimp only at hr
        cases hg2 : svc.chatGen (if !ctx.isEmpty && ic2 then
            replaceLast msgs { role := "user".data, content := enhancedContent ctx m.content }
          else msgs) with
        | ok resp2 =>
          rw [hg2] at hr
          injection hr with h
          subst h
          left
          rfl
        | error e2 =>
          rw [hg2] at hr
          injection hr with h
          subst h
          right
          exact ⟨rfl, rfl, rfl⟩
  · intro e he
    unfold chat at he
    cases hu : latestUser msgs with
    | none => rw [hu] at he; cases he
    | some m =>
      rw [hu] at he
      dsimp only at he
      refine ⟨m, rfl, ?_⟩
      cases hret : chatRetrieve svc cfg ic2 m.content with
      | ok p =>
        rw [hret] at he
        obtain ⟨docs, ctx⟩ := p
        dsimp only at he
        cases hg : svc.chatGen (if !ctx.isEmpty && ic2 then
            replaceLast msgs { role := "user".data, content := enhancedContent ctx m.content }
          else msgs) with
        | ok resp => rw [hg] at he; cases he
        | error e2 => rw [hg] at he; cases he
      | error e2 =>
        rw [hret] at he
        injection he with h
        subst h
        unfold chatRetrieve at hret
        by_cases hcond : (ic2 && !m.content.isEmpty) = true
        · rw [if_pos hcond] at hret
          cases hec : svc.encode m.content with
          | error e3 =>
            left
            rw [hec] at hret
            simp only [Except.bind, bind] at hret
            injection hret with h2
            rw [h2]
          | ok v =>
            right
            refine ⟨v, rfl, ?_⟩
            rw [hec] at hret
            simp only [Except.bind, bind] at hret
            cases hs : svc.search v cfg.topK cfg.scoreThreshold with
            | error e3 =>
              rw [hs] at hret
              injection hret with h2
              rw [h2]
            | ok docs =>
              rw [hs] at hret
              simp [pure, Except.pure] at hret
        · rw [if_neg hcond] at hret
          cases hret

/-- C1 witness: concrete instances of the three parts of
`c1_orchestrator_boundary` — a query whose generation fails returns the
fallback with the error recorded; a chat whose generation fails returns the
apology result; and a chat that escapes with `"emb down"` does so because the
embedding call on the latest user turn raised exactly that. -/
theorem c1_boundary_witness :
    (query svcGenFail cfg0 "q".data true 2000 =
      queryFallback "q".data "gen down".data) ∧
    ((chatFallback "gen down".data).error = none ∨
      ((chatFallback "gen down".data).answer = chatApology ∧
        (chatFallback "gen down".data).sources = [] ∧
        (chatFallback "gen down".data).context_used = false)) ∧
    (∃ m, latestUser [⟨"user".data, "hi".data⟩] = some m ∧
      (svcEmbFail.encode m.content = .error "emb down".data ∨
        ∃ v, svcEmbFail.encode m.content = .ok v ∧
          svcEmbFail.search v cfg0.topK cfg0.scoreThreshold = .error "emb down".data)) :=
  ⟨(c1_orchestrator_boundary svcGenFail cfg0 "q".data true 2000 [] true).1
      "gen down".data rfl,
   (c1_orchestrator_boundary svcGenFail cfg0 "q".data true 2000
      [⟨"user".data, "hi".data⟩] true).2.1 (chatFallback "gen down".data) rfl,
   (c1_orchestrator_boundary svcEmbFail cfg0 [] true 0
      [⟨"user".data, "hi".data⟩] true).2.2 "emb down".data rfl⟩

/-- C2 counterexample: two conversations with the same latest user turn
`"Q"` but different prior turns.  Against `svcProbe` — whose generation call
answers with the concatenation of the contents of every message it receives —
chat answers `"ABQ"` for the three-turn conversation and `"Q"` for the
single-turn one, so the prompt handed to the generation step contains the
prior turns `"A"` and `"B"`: prior conversation turns ARE resent to the
generation gateway, contradicting the claim. -/
theorem c2_chat_counterexample :
    chat svcProbe cfg0 msgsABQ false = .ok (chatSuccess "ABQ".data [] []) ∧
    chat svcProbe cfg0 [⟨"user".data, "Q".data⟩] false =
      .ok (chatSuccess "Q".data [] []) := ⟨rfl, rfl⟩

/-- C2 (amended): only the most recent `role == "user"` message is used as
the retrieval query — chat's outcome is unchanged by any modification of the
embedding service that preserves its answer on the latest user content, so
prior turns are never re-embedded.  The full `messages` list, prior turns
included, is however handed to the generation gateway: with no retrieved
context the generation call receives `messages` itself (and with context, the
same list with only its final element replaced). -/
theorem c2_chat_latest_turn (svc svc2 : Services) (cfg : RAGConfig)
    (msgs : List Message) (ic : Bool) :
    ((∀ m, latestUser msgs = some m → svc2.encode m.content = svc.encode m.content) →
      svc2.search = svc.search → svc2.chatGen = svc.chatGen →
      chat svc2 cfg msgs ic = chat svc cfg msgs ic) ∧
    (∀ m, latestUser msgs = some m →
      chat svc cfg msgs false =
        .ok (match svc.chatGen msgs with
             | .ok a => chatSuccess a [] []
             | .error e => chatFallback e)) := by
  constructor
  · intro henc hsearch hgen
    unfold chat
    cases hu : latestUser msgs with
    | none => rfl
    | some m =>
      dsimp only
      have hr : chatRetrieve svc2 cfg ic m.content = chatRetrieve svc cfg ic m.content := by
        unfold chatRetrieve
        rw [henc m hu, hsearch]
      rw [hr, hgen]
  · intro m hu
    unfold chat
    rw [hu]
    dsimp only
    have hr : chatRetrieve svc cfg false m.content = .ok ([], []) := rfl
    rw [hr]
    cases hg : svc.chatGen msgs with
    | ok a => simp [hg, Bool.and_false]
    | error e => simp [hg, Bool.and_false]

/-- C2 witness: `svcProbeAlt` only answers embedding requests for `"Q"` (the
latest user turn of `msgsABQ`) yet chat behaves as under `svcProbe`; and with
`include_context = false` the generation gateway receives the full three-turn
list. -/
theorem c2_chat_witness :
    chat svcProbeAlt cfg0 msgsABQ true = chat svcProbe cfg0 msgsABQ true ∧
    chat svcProbe cfg0 msgsABQ false =
      .ok (match svcProbe.chatGen msgsABQ with
           | .ok a => chatSuccess a [] []
           | .error e => chatFallback e) := by
  constructor
  · refine (c2_chat_latest_turn svcProbe svcProbeAlt cfg0 msgsABQ true).1 ?_ rfl rfl
    intro m hm
    rw [show latestUser msgsABQ = some ⟨"user".data, "Q".data⟩ from rfl] at hm
    injection hm with h
    subst h
    rfl
  · exact (c2_chat_latest_turn svcProbe svcProbe cfg0 msgsABQ true).2
      ⟨"user".data, "Q".data⟩ rfl

/-- C10: in the result objects of both `query` and `chat`, the `sources`
entries are built by `mkSource` from the retrieved documents in retrieval
order (`sources = docs.map mkSource`): each preview is the chunk text
verbatim when it has at most 200 characters and exactly its first 200
characters followed by `"..."` otherwise (hence always at most 203
characters), and each entry copies the result's score and metadata
unchanged. -/
theorem c10_source_previews (docs : List RetrievedDoc) (d : RetrievedDoc)
    (svc : Services) (cfg : RAGConfig) (q : PyStr) (ic : Bool) (mcl : Nat)
    (r : QueryResult) (msgs : List Message) (ic2 : Bool) (cr : ChatResult) :
    sourcesOf docs = docs.map mkSource ∧
    (mkSource d).score = d.score ∧
    (mkSource d).metadata = d.metadata ∧
    (mkSource d).text =
      (if 200 < d.text.length then d.text.take 200 ++ "...".data else d.text) ∧
    (mkSource d).text.length ≤ 203 ∧
    (queryRun svc cfg q ic mcl = .ok r →
      ∃ ds, r.sources = sourcesOf ds ∧ r.num_sources = ds.length) ∧
    (chat svc cfg msgs ic2 = .ok cr → ∃ ds, cr.sources = sourcesOf ds) := by
  refine ⟨rfl, rfl, rfl, rfl, ?_, ?_, ?_⟩
  · unfold mkSource
    dsimp only
    split
    · rename_i hlen
      simp only [List.length_append, List.length_take]
      have hdot : List.length (['.', '.', '.'] : List Char) = 3 := rfl
      omega
    · rename_i hlen
      omega
  · intro hq
    unfold queryRun at hq
    cases he : svc.encode q with
    | error e => rw [he] at hq; cases hq
    | ok v =>
      rw [he] at hq
      simp only [Except.bind, bind] at hq
      cases ic with
      | false =>
        simp only [Bool.false_eq_true, if_false, pure, Except.pure] at hq
        cases hg : svc.generate q none with
        | error e => rw [hg] at hq; cases hq
        | ok a =>
          rw [hg] at hq
          injection hq with h
          subst h
          exact ⟨[], rfl, rfl⟩
      | true =>
        simp only [if_true] at hq
        cases hs : svc.search v cfg.topK cfg.scoreThreshold with
        | error e => rw [hs] at hq; cases hq
        | ok ds =>
          rw [hs] at hq
          dsimp only at hq
          cases hg : svc.generate q (some (prepareContext ds mcl)) with
          | error e => rw [hg] at hq; cases hq
          | ok a =>
            rw [hg] at hq
            simp only [pure, Except.pure] at hq
            injection hq with h
            subst h
            exact ⟨ds, rfl, rfl⟩
  · intro hc
    unfold chat at hc
    cases hu : latestUser msgs with
    | none =>
      rw [hu] at hc
      injection hc with h
      subst h
      exact ⟨[], rfl⟩
    | some m =>
      rw [hu] at hc
      dsimp only at hc
      cases hret : chatRetrieve svc cfg ic2 m.content with
      | error e => rw [hret] at hc; cases hc
      | ok p =>
        rw [hret] at hc
        obtain ⟨ds, ctx⟩ := p
        dsimp only at hc
        cases hg : svc.chatGen (if !ctx.isEmpty && ic2 then
            replaceLast msgs { role := "user".data, content := enhancedContent ctx m.content }
          else msgs) with
        | ok resp =>
          rw [hg] at hc
          injection hc with h
          subst h
          exact ⟨ds, rfl⟩
        | error e =>
          rw [hg] at hc
          injection hc with h
          subst h
          exact ⟨[], rfl⟩

/-- C10 witness: a concrete successful query and chat whose `sources` are
built by `sourcesOf`, and a preview length instance. -/
theorem c10_source_previews_witness :
    (mkSource ⟨"hello".data, "0.9".data, []⟩).text.length ≤ 203 ∧
    (∃ ds, (query svcOneDoc cfg0 "q".data true 2000).sources = sourcesOf ds ∧
      (query svcOneDoc cfg0 "q".data true 2000).num_sources = ds.length) ∧
    (∃ ds, (chatSuccess "ok".data [⟨"hello".data, "0.9".data, []⟩]
        (prepareContext [⟨"hello".data, "0.9".data, []⟩] 1500)).sources = sourcesOf ds) := by
  have h := c10_source_previews [] ⟨"hello".data, "0.9".data, []⟩ svcOneDoc cfg0
    "q".data true 2000 (query svcOneDoc cfg0 "q".data true 2000)
    [⟨"user".data, "hi".data⟩] true
    (chatSuccess "ok".data [⟨"hello".data, "0.9".data, []⟩]
      (prepareContext [⟨"hello".data, "0.9".data, []⟩] 1500))
  exact ⟨h.2.2.2.2.1, h.2.2.2.2.2.1 rfl, h.2.2.2.2.2.2 rfl⟩

/-- C3 counterexample: in `svcDup` every strategy search returns the single
chunk `d0`, so all five result sets pairwise share an identical chunk, yet
the merged list produced by `_extract_comprehensive_content` contains `d0`
five times, not once: no deduplication (by normalized 100-character prefix or
otherwise) is performed. -/
theorem c3_dedup_counterexample :
    (allChunks svcDup "stocks".data).count d0 = 5 ∧ (5 : Nat) ≠ 1 := by
  constructor
  · rfl
  · decide

/-- C3 (amended): the multi-strategy merge is a plain concatenation of the
five strategy result lists in strategy order, with no deduplication: every
chunk occurs in the merged list exactly as many times as it occurs across the
five result sets combined, and `total_sources` counts all of them. -/
theorem c3_merge_no_dedup (svc : AgentServices) (topic : PyStr) (d : RetrievedDoc) :
    (allChunks svc topic).count d =
      (directChunks svc topic).count d + (technicalChunks svc topic).count d
        + (applicationChunks svc topic).count d + (safetyChunks svc topic).count d
        + (standardsChunks svc topic).count d ∧
    (extractComprehensiveContent svc topic).total_sources =
      (directChunks svc topic).length + (technicalChunks svc topic).length
        + (applicationChunks svc topic).length + (safetyChunks svc topic).length
        + (standardsChunks svc topic).length := by
  constructor
  · simp only [allChunks, List.count_append]
  · simp only [extractComprehensiveContent, allChunks, List.length_append]

/-- C9 counterexample: a call with two texts, two embeddings and two metadata
entries but a caller-supplied one-element `ids` list does not fail: it
silently writes a single point (the batch is zipped down to the shortest
input) and returns the supplied `ids` list unchanged. -/
theorem c9_upsert_counterexample :
    addDocuments (fun _ => "g".data) ["t1".data, "t2".data] [1, 2] [[], []]
        (some ["i1".data]) =
      .ok ([{ id := "i1".data, vector := 1, payload := [("text".data, "t1".data)] }],
        ["i1".data]) := rfl

/-- C9 (amended): `add_documents` validates only `texts`/`embeddings`/
`metadatas`: when those three lengths are not all equal it raises the
`ValueError` before anything is written, for any `ids` argument.  But when
they agree, a caller-supplied `ids` list of any length is accepted: the batch
is silently zipped down to `min(len(texts), len(ids))` points and the
supplied `ids` list is returned as-is, while the default (generated) ids give
one point per text. -/
theorem c9_upsert_shape (genId : Nat → PyStr) (texts : List PyStr)
    (embeddings : List Vec) (metadatas : List (List (PyStr × PyStr)))
    (ids : List PyStr) :
    (¬(texts.length = embeddings.length ∧ texts.length = metadatas.length) →
      ∀ idsArg, addDocuments genId texts embeddings metadatas idsArg =
        .error "texts, embeddings, and metadatas must have the same length".data) ∧
    (texts.length = embeddings.length → texts.length = metadatas.length →
      (∃ points, addDocuments genId texts embeddings metadatas (some ids) =
          .ok (points, ids) ∧ points.length = min texts.length ids.length) ∧
      (∃ points, addDocuments genId texts embeddings metadatas none =
          .ok (points, (List.range texts.length).map genId) ∧
        points.length = texts.length)) := by
  constructor
  · intro hne idsArg
    unfold addDocuments
    rw [if_pos]
    omega
  · intro h1 h2
    constructor
    · refine ⟨(texts.zip (embeddings.zip (metadatas.zip ids))).map
          (fun q => { id := q.2.2.2, vector := q.2.1
                      payload := dictSet q.2.2.1 "text".data q.1 }), ?_, ?_⟩
      · unfold addDocuments
        rw [if_neg (by omega)]
      · simp only [List.length_map, List.length_zip]
        omega
    · refine ⟨(texts.zip (embeddings.zip
          (metadatas.zip ((List.range texts.length).map genId)))).map
          (fun q => { id := q.2.2.2, vector := q.2.1
                      payload := dictSet q.2.2.1 "text".data q.1 }), ?_, ?_⟩
      · unfold addDocuments
        rw [if_neg (by omega)]
      · simp only [List.length_map, List.length_zip, List.length_range]
        omega

/-- C9 witness: concrete instances — a three-way length mismatch raises; with
matching lengths a short custom ids list yields `min` points; default ids
yield one point per text. -/
theorem c9_upsert_witness :
    (addDocuments (fun _ => "g".data) ["a".data] [] [] none =
      .error "texts, embeddings, and metadatas must have the same length".data) ∧
    (∃ points, addDocuments (fun _ => "g".data) ["a".data, "b".data] [1, 2] [[], []]
        (some ["x".data]) = .ok (points, ["x".data]) ∧
      points.length = min 2 1) ∧
    (∃ points, addDocuments (fun _ => "g".data) ["a".data, "b".data] [1, 2] [[], []]
        none = .ok (points, (List.range 2).map (fun _ => "g".data)) ∧
      points.length = 2) := by
  refine ⟨?_, ?_, ?_⟩
  · exact (c9_upsert_shape (fun _ => "g".data) ["a".data] [] [] []).1
      (by decide) none
  · exact ((c9_upsert_shape (fun _ => "g".data) ["a".data, "b".data] [1, 2] [[], []]
      ["x".data]).2 rfl rfl).1
  · exact ((c9_upsert_shape (fun _ => "g".data) ["a".data, "b".data] [1, 2] [[], []]
      ["x".data]).2 rfl rfl).2
